import Mathlib

set_option maxRecDepth 16384

/-!
Verification of the SafeSpeak Report Analyzer
(`src/backend/src/services/geminiService.js`).

The analyzer is embedded shallowly:
* `Json` models ECMAScript values produced by `JSON.parse`;
* `jsonParse` models `JSON.parse` on a string (fuel-based recursive descent);
* `extractJson` models `text.match(/\x7b[\s\S]*\x7d/)` — the greedy regex
  matches from the first opening brace to the last closing brace;
* `analyzeReport` models the exported `analyzeReport`, with the outcome of
  the network race (`model.generateContent` vs the 30 s timer) supplied as
  an explicit `ModelOutcome` oracle, and a boolean recording whether the
  network call was attempted;
* `getFallbackResponse` and `getAIStatus` are transcribed directly.
-/

namespace SafeSpeak

/-- ECMAScript values as produced by `JSON.parse`: null, booleans, numbers
(mantissa × 10 ^ exponent), strings, arrays and objects (key order and
duplicate keys as parsed). -/
inductive Json where
  | null : Json
  | bool (b : Bool) : Json
  | num (mantissa : Int) (exp10 : Int) : Json
  | str (s : String) : Json
  | arr (elems : List Json) : Json
  | obj (fields : List (String × Json)) : Json

/-- JS truthiness of a value: `null`, `false`, `0` and `""` are falsy;
arrays and objects are always truthy. -/
def Json.truthy : Json → Bool
  | .null => false
  | .bool b => b
  | .num m _ => m != 0
  | .str s => s != ""
  | .arr _ => true
  | .obj _ => true

/-- Object member lookup; with duplicate keys `JSON.parse` keeps the last
occurrence, hence the reversed search. Returns `none` for a missing key or
a non-object receiver. -/
def Json.lookup : Json → String → Option Json
  | .obj kvs, k => (kvs.reverse.find? (fun kv => kv.1 == k)).map (fun kv => kv.2)
  | _, _ => none

/-- JS property access `o.k`: `none` models a thrown `TypeError` (null
receiver); `some none` models `undefined`; `some (some v)` a real value.
Primitives other than null have none of the four suggestion properties. -/
def jsGet : Json → String → Option (Option Json)
  | .null, _ => none
  | .obj kvs, k => some (Json.lookup (.obj kvs) k)
  | _, _ => some none

/-- Truthiness of a possibly-undefined value (`undefined` is falsy). -/
def jsTruthy : Option Json → Bool
  | none => false
  | some j => j.truthy

/-- JS `v || d`: the left operand when truthy, otherwise the default. -/
def jsOrElse (v : Option Json) (d : Json) : Json :=
  match v with
  | some j => if j.truthy then j else d
  | none => d

/-! ### JSON.parse -/

/-- JSON whitespace. -/
def isWsChar (c : Char) : Bool := c = ' ' || c = '\t' || c = '\n' || c = '\r'

/-- Drop leading JSON whitespace. -/
def skipWs : List Char → List Char
  | [] => []
  | c :: cs => if isWsChar c then skipWs cs else c :: cs

/-- Match a literal character sequence, returning the remainder. -/
def dropLit : List Char → List Char → Option (List Char)
  | [], cs => some cs
  | p :: ps, c :: cs => if c = p then dropLit ps cs else none
  | _ :: _, [] => none

/-- Value of a hexadecimal digit. -/
def hexVal (c : Char) : Option Nat :=
  if '0' ≤ c ∧ c ≤ '9' then some (c.toNat - '0'.toNat)
  else if 'a' ≤ c ∧ c ≤ 'f' then some (c.toNat - 'a'.toNat + 10)
  else if 'A' ≤ c ∧ c ≤ 'F' then some (c.toNat - 'A'.toNat + 10)
  else none

/-- Scan a JSON string body (after the opening quote) up to the closing
quote, decoding escapes; returns the characters and the remainder. -/
def parseStringBody : Nat → List Char → Option (List Char × List Char)
  | 0, _ => none
  | _, [] => none
  | fuel+1, c :: cs =>
    if c = '"' then some ([], cs)
    else if c = '\\' then
      match cs with
      | [] => none
      | e :: cs2 =>
        let esc : Option (Char × List Char) :=
          if e = '"' then some ('"', cs2)
          else if e = '\\' then some ('\\', cs2)
          else if e = '/' then some ('/', cs2)
          else if e = 'b' then some ('\x08', cs2)
          else if e = 'f' then some ('\x0c', cs2)
          else if e = 'n' then some ('\n', cs2)
          else if e = 'r' then some ('\r', cs2)
          else if e = 't' then some ('\t', cs2)
          else if e = 'u' then
            match cs2 with
            | h1 :: h2 :: h3 :: h4 :: cs3 =>
              match hexVal h1, hexVal h2, hexVal h3, hexVal h4 with
              | some a, some b, some c3, some d =>
                some (Char.ofNat (((a * 16 + b) * 16 + c3) * 16 + d), cs3)
              | _, _, _, _ => none
            | _ => none
          else none
        match esc with
        | none => none
        | some (ch, rest) =>
          match parseStringBody fuel rest with
          | none => none
          | some (s, rest2) => some (ch :: s, rest2)
    else
      match parseStringBody fuel cs with
      | none => none
      | some (s, rest) => some (c :: s, rest)

/-- Split off a maximal run of decimal digits. -/
def takeDigits : List Char → List Char × List Char
  | [] => ([], [])
  | c :: cs =>
    if c.isDigit then
      let (d, r) := takeDigits cs
      (c :: d, r)
    else ([], c :: cs)

/-- Numeric value of a digit run. -/
def digitsVal (ds : List Char) : Nat :=
  ds.foldl (fun a c => a * 10 + (c.toNat - '0'.toNat)) 0

/-- Parse an optional exponent part (`e`/`E`, optional sign, digits). -/
def parseExpPart (cs : List Char) : Option (Int × List Char) :=
  match cs with
  | c :: rest =>
    if c = 'e' || c = 'E' then
      let (esign, r1) : Int × List Char :=
        match rest with
        | '+' :: r => (1, r)
        | '-' :: r => (-1, r)
        | _ => (1, rest)
      let (eds, r2) := takeDigits r1
      if eds.isEmpty then none else some (esign * (digitsVal eds : Int), r2)
    else some (0, cs)
  | [] => some (0, [])

/-- Parse a JSON number starting at the given characters. -/
def parseNumberFrom (cs : List Char) : Option (Json × List Char) :=
  let (neg, cs1) : Bool × List Char :=
    match cs with
    | '-' :: r => (true, r)
    | _ => (false, cs)
  let (ints, cs2) := takeDigits cs1
  if ints.isEmpty then none
  else
    let fracStep : Option (List Char × List Char) :=
      match cs2 with
      | '.' :: r =>
        let (f, r2) := takeDigits r
        if f.isEmpty then none else some (f, r2)
      | _ => some ([], cs2)
    match fracStep with
    | none => none
    | some (fracs, cs3) =>
      match parseExpPart cs3 with
      | none => none
      | some (expv, cs4) =>
        let m : Nat := digitsVal (ints ++ fracs)
        let mz : Int := if neg then -(m : Int) else (m : Int)
        some (Json.num mz (expv - (fracs.length : Int)), cs4)

mutual

/-- Recursive-descent JSON value parser (fuel-based). -/
def parseValue : Nat → List Char → Option (Json × List Char)
  | 0, _ => none
  | fuel+1, cs =>
    match skipWs cs with
    | [] => none
    | c :: rest =>
      if c = '\x7b' then parseObjStart fuel rest
      else if c = '[' then parseArrStart fuel rest
      else if c = '"' then
        match parseStringBody (rest.length + 1) rest with
        | some (sChars, r2) => some (Json.str (String.mk sChars), r2)
        | none => none
      else if c = 't' then
        match dropLit ['r', 'u', 'e'] rest with
        | some r2 => some (Json.bool true, r2)
        | none => none
      else if c = 'f' then
        match dropLit ['a', 'l', 's', 'e'] rest with
        | some r2 => some (Json.bool false, r2)
        | none => none
      else if c = 'n' then
        match dropLit ['u', 'l', 'l'] rest with
        | some r2 => some (Json.null, r2)
        | none => none
      else if c = '-' || c.isDigit then parseNumberFrom (c :: rest)
      else none

/-- Parse an object body right after the opening brace. -/
def parseObjStart : Nat → List Char → Option (Json × List Char)
  | 0, _ => none
  | fuel+1, cs =>
    match skipWs cs with
    | '\x7d' :: rest => some (Json.obj [], rest)
    | cs2 => parseMembers fuel [] cs2

/-- Parse one or more `"key": value` members, comma separated. -/
def parseMembers : Nat → List (String × Json) → List Char → Option (Json × List Char)
  | 0, _, _ => none
  | fuel+1, acc, cs =>
    match skipWs cs with
    | '"' :: rest =>
      match parseStringBody (rest.length + 1) rest with
      | none => none
      | some (kChars, r2) =>
        match skipWs r2 with
        | ':' :: r3 =>
          match parseValue fuel r3 with
          | none => none
          | some (v, r4) =>
            let acc2 := acc ++ [(String.mk kChars, v)]
            match skipWs r4 with
            | ',' :: r5 => parseMembers fuel acc2 r5
            | '\x7d' :: r5 => some (Json.obj acc2, r5)
            | _ => none
        | _ => none
    | _ => none

/-- Parse an array body right after the opening bracket. -/
def parseArrStart : Nat → List Char → Option (Json × List Char)
  | 0, _ => none
  | fuel+1, cs =>
    match skipWs cs with
    | ']' :: rest => some (Json.arr [], rest)
    | cs2 => parseElems fuel [] cs2

/-- Parse one or more array elements, comma separated. -/
def parseElems : Nat → List Json → List Char → Option (Json × List Char)
  | 0, _, _ => none
  | fuel+1, acc, cs =>
    match parseValue fuel cs with
    | none => none
    | some (v, r1) =>
      let acc2 := acc ++ [v]
      match skipWs r1 with
      | ',' :: r2 => parseElems fuel acc2 r2
      | ']' :: r2 => some (Json.arr acc2, r2)
      | _ => none

end

/-- Model of `JSON.parse`: parse a complete value, allowing surrounding
whitespace, rejecting trailing garbage. -/
def jsonParse (s : String) : Option Json :=
  let cs := s.toList
  match parseValue (4 * cs.length + 4) cs with
  | some (j, rest) => if skipWs rest = [] then some j else none
  | none => none

/-! ### The regex extraction `text.match(/\x7b[\s\S]*\x7d/)` -/

/-- Index of the last occurrence of a character. -/
def lastIdxOf (cs : List Char) (c : Char) : Option Nat :=
  match cs.reverse.findIdx? (· == c) with
  | none => none
  | some j => some (cs.length - 1 - j)

/-- The first match of the greedy regex: the span from the first opening
brace to the last closing brace, provided the latter comes strictly after
the former; `none` models a `null` match result. -/
def extractJson (s : String) : Option String :=
  let cs := s.toList
  match cs.findIdx? (· == '\x7b'), lastIdxOf cs '\x7d' with
  | some i, some j =>
    if i < j then some (String.mk ((cs.drop i).take (j - i + 1))) else none
  | _, _ => none

/-! ### The analyzer (`geminiService.js`) -/

/-- One normalized suggestion as built in the success branch of
`analyzeReport` (fields hold the raw JS values). -/
structure Suggestion where
  type : Json
  name : Json
  description : Json
  contact : Json

/-- The object `analyzeReport` resolves with: either the normalized
analysis or the fallback payload. -/
structure AnalysisResult where
  aiAnalyzed : Bool
  aiCategory : Json
  aiSeverity : Json
  aiSummary : Json
  aiSuggestions : List Suggestion

/-- `getFallbackResponse()`, transcribed verbatim. -/
def getFallbackResponse : AnalysisResult where
  aiAnalyzed := false
  aiCategory := .str "unknown"
  aiSeverity := .str "unknown"
  aiSummary := .str "Your report has been received. Our automated analysis is temporarily unavailable, but your report will be reviewed by our team."
  aiSuggestions :=
    [ { type := .str "hotline"
      , name := .str "National Human Rights Helpline"
      , description := .str "General support for human rights issues"
      , contact := .str "1800-XXX-XXXX (toll-free)" }
    , { type := .str "ngo"
      , name := .str "Local Support Services"
      , description := .str "Connect with local NGOs that can provide guidance"
      , contact := .str "Visit your local community center" }
    , { type := .str "legal"
      , name := .str "Free Legal Aid"
      , description := .str "Many areas offer free legal consultation"
      , contact := .str "Search \"free legal aid\" + your location" } ]

/-- The per-suggestion normalization
`s => (\x7b type: s.type || 'other', name: s.name || 'Resource',
description: s.description || '', contact: s.contact || '' \x7d)`;
`none` models a thrown `TypeError` (a `null` array element). -/
def normalizeSuggestion (s : Json) : Option Suggestion :=
  match jsGet s "type", jsGet s "name", jsGet s "description", jsGet s "contact" with
  | some t, some n, some d, some c =>
    some { type := jsOrElse t (.str "other")
         , name := jsOrElse n (.str "Resource")
         , description := jsOrElse d (.str "")
         , contact := jsOrElse c (.str "") }
  | _, _, _, _ => none

/-- `analysis.suggestions.map(...)`; a thrown `TypeError` on any element
aborts the whole map. -/
def mapNormalize : List Json → Option (List Suggestion)
  | [] => some []
  | s :: rest =>
    match normalizeSuggestion s, mapNormalize rest with
    | some sug, some sugs => some (sug :: sugs)
    | _, _ => none

/-- The body of the inner `try` after `JSON.parse` succeeded: the
required-field truthiness check, then construction of the result object
(summary default first, then the suggestion map, in source order). `none`
models any exception caught by the inner `catch`. -/
def validateAndNormalize (analysis : Json) : Option AnalysisResult :=
  match jsGet analysis "category", jsGet analysis "severity", jsGet analysis "suggestions" with
  | some cat?, some sev?, some sugs? =>
    if jsTruthy cat? && jsTruthy sev? && jsTruthy sugs? then
      match cat?, sev?, sugs? with
      | some cat, some sev, some sugs =>
        match jsGet analysis "summary" with
        | none => none
        | some sum? =>
          let summary := jsOrElse sum? (.str "Analysis completed")
          match sugs with
          | .arr xs =>
            match mapNormalize xs with
            | some sugList =>
              some { aiAnalyzed := true
                   , aiCategory := cat
                   , aiSeverity := sev
                   , aiSummary := summary
                   , aiSuggestions := sugList }
            | none => none
          | _ => none
      | _, _, _ => none
    else none
  | _, _, _ => none

/-- Regex extraction followed by `JSON.parse` of the matched span. -/
def extractAndParse (text : String) : Option Json :=
  match extractJson text with
  | none => none
  | some span => jsonParse span

/-- The whole inner `try` block on the raw response text: extract, parse,
validate, normalize; `none` means the inner `catch` fires. -/
def parseAnalysis (text : String) : Option AnalysisResult :=
  match extractAndParse text with
  | none => none
  | some analysis => validateAndNormalize analysis

/-- Outcome of `Promise.race([resultPromise, timeoutPromise])` followed by
reading the response text: the model answered with some text, the
transport failed, or the 30 s timer won the race. -/
inductive ModelOutcome where
  | success (text : String) : ModelOutcome
  | transportError : ModelOutcome
  | timeout : ModelOutcome

/-- `const timeoutMs = 30000`. -/
def timeoutMs : Nat := 30000

/-- Module initialization: `model` is non-null iff `config.geminiApiKey`
is truthy (JS string truthiness: nonempty). -/
def initModelConfigured (geminiApiKey : String) : Bool := geminiApiKey != ""

/-- `analyzeReport(description)`: the configuration is the credential
string, the race outcome is supplied as an oracle; the second component
records whether `model.generateContent` was invoked (there is exactly one
attempt, no retry loop exists in the source). -/
def analyzeReport (geminiApiKey : String) (description : String)
    (outcome : ModelOutcome) : AnalysisResult × Bool :=
  if initModelConfigured geminiApiKey = false then (getFallbackResponse, false)
  else
    match outcome with
    | .success text =>
      match parseAnalysis text with
      | some r => (r, true)
      | none => (getFallbackResponse, true)
    | .transportError => (getFallbackResponse, true)
    | .timeout => (getFallbackResponse, true)

/-- The record returned by `getAIStatus()`. -/
structure AIStatus where
  configured : Bool
  provider : String
  model : String

/-- `getAIStatus()`: a pure function of the startup configuration; it
performs no network call. -/
def getAIStatus (geminiApiKey : String) : AIStatus where
  configured := initModelConfigured geminiApiKey
  provider := "Google Gemini"
  model := "gemini-2.5-flash"

/-- The five categories enumerated by the prompt (and, with `unknown`,
by the `Report` schema). -/
def allowedCategories : List String :=
  ["harassment", "corruption", "abuse", "discrimination", "other"]

/-- The four severities enumerated by the prompt. -/
def allowedSeverities : List String :=
  ["low", "medium", "high", "critical"]

/-- The five suggestion types enumerated by the prompt. -/
def allowedSuggestionTypes : List String :=
  ["ngo", "legal", "hotline", "journalist", "government"]

/-- `aiSummary: \x7b type: String, maxlength: 500 \x7d` in
`src/backend/src/models/Report.js`. -/
def aiSummaryMaxlength : Nat := 500

end SafeSpeak


namespace SafeSpeak

/-- Any record the validation step accepts was built in its single
success branch: `aiAnalyzed` is `true` and the category and severity it
carries passed the truthiness guard. -/
theorem validateAndNormalize_truthy {a : Json} {r : AnalysisResult}
    (h : validateAndNormalize a = some r) :
    r.aiAnalyzed = true ∧ r.aiCategory.truthy = true ∧ r.aiSeverity.truthy = true := by
  unfold validateAndNormalize at h
  repeat' split at h
  all_goals simp_all [jsTruthy]
  subst h
  simp_all

/-- Lifting of `validateAndNormalize_truthy` through extraction and
parsing. -/
theorem parseAnalysis_truthy {t : String} {r : AnalysisResult}
    (h : parseAnalysis t = some r) :
    r.aiAnalyzed = true ∧ r.aiCategory.truthy = true ∧ r.aiSeverity.truthy = true := by
  unfold parseAnalysis at h
  split at h
  · exact absurd h (by simp)
  · exact validateAndNormalize_truthy h

/-- Every call resolves either with the fallback payload (with the
network flag recording whether the model was consulted) or with a fully
parsed analysis. -/
theorem analyzeReport_cases (key desc : String) (o : ModelOutcome) :
    analyzeReport key desc o = (getFallbackResponse, initModelConfigured key) ∨
    ∃ t r, o = ModelOutcome.success t ∧ parseAnalysis t = some r ∧
      initModelConfigured key = true ∧ analyzeReport key desc o = (r, true) := by
  by_cases hk : initModelConfigured key = false
  · left; simp [analyzeReport, hk]
  · have hk' : initModelConfigured key = true := by
      cases hcfg : initModelConfigured key with
      | false => exact absurd hcfg hk
      | true => rfl
    cases o with
    | success t =>
      cases hp : parseAnalysis t with
      | none => left; simp [analyzeReport, hk', hp]
      | some r => right; exact ⟨t, r, rfl, hp, hk', by simp [analyzeReport, hk', hp]⟩
    | transportError => left; simp [analyzeReport, hk']
    | timeout => left; simp [analyzeReport, hk']

end SafeSpeak

namespace SafeSpeak

/-- Claim C1: `analyze` is total and absorbing: for every input, each
failure mode (not configured, transport failure, timeout, no JSON,
unparsable JSON, missing required field — the last three being
`parseAnalysis _ = none`) yields exactly the fallback payload, and every
result is either the full fallback or a fully parsed analysis — never a
partially merged value. -/
theorem analyze_total_absorbs_failures (key desc : String) (o : ModelOutcome) :
    (initModelConfigured key = false → analyzeReport key desc o = (getFallbackResponse, false)) ∧
    (o = ModelOutcome.transportError → (analyzeReport key desc o).1 = getFallbackResponse) ∧
    (o = ModelOutcome.timeout → (analyzeReport key desc o).1 = getFallbackResponse) ∧
    (∀ text, o = ModelOutcome.success text → parseAnalysis text = none →
      (analyzeReport key desc o).1 = getFallbackResponse) ∧
    ((analyzeReport key desc o).1 = getFallbackResponse ∨
      ∃ text r, o = ModelOutcome.success text ∧ parseAnalysis text = some r ∧
        analyzeReport key desc o = (r, true)) := by
  refine ⟨fun h => by simp [analyzeReport, h], ?_, ?_, ?_, ?_⟩
  · rintro rfl
    rcases analyzeReport_cases key desc ModelOutcome.transportError with h | ⟨t, r, ht, _⟩
    · rw [h]
    · exact absurd ht (by intro hx; cases hx)
  · rintro rfl
    rcases analyzeReport_cases key desc ModelOutcome.timeout with h | ⟨t, r, ht, _⟩
    · rw [h]
    · exact absurd ht (by intro hx; cases hx)
  · rintro text rfl hp
    by_cases hk : initModelConfigured key = false
    · simp [analyzeReport, hk]
    · have hk' : initModelConfigured key = true := by
        cases hcfg : initModelConfigured key with
        | false => exact absurd hcfg hk
        | true => rfl
      simp [analyzeReport, hk', hp]
  · rcases analyzeReport_cases key desc o with h | ⟨t, r, ht, hp, _, he⟩
    · left; rw [h]
    · right; exact ⟨t, r, ht, hp, he⟩

/-- Witness for C1 at a concrete unconfigured call. -/
theorem analyze_total_absorbs_failures_witness :
    analyzeReport "" "some report" ModelOutcome.timeout = (getFallbackResponse, false) :=
  (analyze_total_absorbs_failures "" "some report" ModelOutcome.timeout).1 (by decide)

/-- Claim C5: with no credential configured, `analyzeReport` returns the
fallback with `aiAnalyzed = false` and never invokes the model (the
network flag is `false`), whatever the would-be outcome. -/
theorem unconfigured_no_network_call (key desc : String) (o : ModelOutcome)
    (h : initModelConfigured key = false) :
    analyzeReport key desc o = (getFallbackResponse, false) ∧
    (analyzeReport key desc o).1.aiAnalyzed = false := by
  constructor
  · simp [analyzeReport, h]
  · simp [analyzeReport, h, getFallbackResponse]

/-- Witness for C5: even a would-be well-formed model response is never
requested without a credential. -/
theorem unconfigured_no_network_call_witness :
    analyzeReport "" "desc"
        (ModelOutcome.success "\x7b\"category\":\"abuse\",\"severity\":\"low\",\"suggestions\":[]\x7d") =
      (getFallbackResponse, false) :=
  (unconfigured_no_network_call "" "desc"
    (ModelOutcome.success "\x7b\"category\":\"abuse\",\"severity\":\"low\",\"suggestions\":[]\x7d")
    (by decide)).1

/-- Claim C6: the timer is set to 30000 ms; when the timeout wins the race
the single attempt resolves to the fallback payload (network invoked
exactly once, no retry — the flag counts the one `generateContent` call),
identically to a transport failure. -/
theorem timeout_single_attempt_fallback (key desc : String)
    (h : initModelConfigured key = true) :
    timeoutMs = 30000 ∧
    analyzeReport key desc ModelOutcome.timeout = (getFallbackResponse, true) ∧
    analyzeReport key desc ModelOutcome.timeout =
      analyzeReport key desc ModelOutcome.transportError := by
  refine ⟨rfl, ?_, ?_⟩ <;> simp [analyzeReport, h]

/-- Witness for C6 at a concrete configured call. -/
theorem timeout_single_attempt_fallback_witness :
    analyzeReport "key" "desc" ModelOutcome.timeout = (getFallbackResponse, true) :=
  (timeout_single_attempt_fallback "key" "desc" (by decide)).2.1

/-- Claim C9: `getAIStatus` is a pure function of the startup credential
(no network call is possible); it carries the provider name and its
`configured` flag is `false` exactly when no credential is set. -/
theorem status_configured_iff (key : String) :
    (getAIStatus key).provider = "Google Gemini" ∧
    (getAIStatus key).model = "gemini-2.5-flash" ∧
    ((getAIStatus key).configured = false ↔ key = "") := by
  refine ⟨rfl, rfl, ?_⟩
  simp [getAIStatus, initModelConfigured]

/-- Witness for C9 at the empty credential. -/
theorem status_configured_iff_witness :
    (getAIStatus "").configured = false :=
  (status_configured_iff "").2.2.mpr rfl

end SafeSpeak

namespace SafeSpeak

/-- A successfully parsed response resolves `analyzeReport` with exactly
the normalized record. -/
theorem analyzeReport_success_parsed {key : String} (desc : String) {t : String}
    {r : AnalysisResult} (hk : initModelConfigured key = true)
    (hp : parseAnalysis t = some r) :
    analyzeReport key desc (ModelOutcome.success t) = (r, true) := by
  simp [analyzeReport, hk, hp]

/-- Claim C3: the fallback payload has `aiAnalyzed = false`,
category/severity `"unknown"`, and the fixed non-empty three-element
suggestion list (hotline, NGO, legal aid); moreover every result with
`aiAnalyzed = false` IS that payload, so no two failure causes are
distinguishable from the result. -/
theorem fallback_payload_invariants :
    getFallbackResponse.aiAnalyzed = false ∧
    getFallbackResponse.aiCategory = Json.str "unknown" ∧
    getFallbackResponse.aiSeverity = Json.str "unknown" ∧
    getFallbackResponse.aiSuggestions.length = 3 ∧
    getFallbackResponse.aiSuggestions ≠ [] ∧
    getFallbackResponse.aiSuggestions.map Suggestion.type =
      [Json.str "hotline", Json.str "ngo", Json.str "legal"] ∧
    (∀ key desc o r n, analyzeReport key desc o = (r, n) → r.aiAnalyzed = false →
      r = getFallbackResponse) := by
  refine ⟨rfl, rfl, rfl, rfl, by simp [getFallbackResponse], rfl, ?_⟩
  intro key desc o r n he ha
  rcases analyzeReport_cases key desc o with h | ⟨t, r', ht, hp, hk, h⟩
  · have h2 : (r, n) = (getFallbackResponse, initModelConfigured key) := he.symm.trans h
    exact congrArg Prod.fst h2
  · have h2 : (r, n) = (r', true) := he.symm.trans h
    have h3 : r = r' := congrArg Prod.fst h2
    rw [h3, (parseAnalysis_truthy hp).1] at ha
    exact absurd ha (by decide)

/-- Witness for C3: a concrete failing call produces the fallback. -/
theorem fallback_payload_invariants_witness :
    (analyzeReport "" "x" ModelOutcome.timeout).1 = getFallbackResponse :=
  fallback_payload_invariants.2.2.2.2.2.2 "" "x" ModelOutcome.timeout
    (analyzeReport "" "x" ModelOutcome.timeout).1
    (analyzeReport "" "x" ModelOutcome.timeout).2 rfl rfl

/-- Model response whose category lies outside the enumerated set. -/
def bogusCategoryText : String :=
  "\x7b\"category\":\"bogus\",\"severity\":\"high\",\"suggestions\":[]\x7d"

/-- Claim C2 is falsified at a concrete input: the parsed category
`"bogus"` is outside the enumerated set, yet the result is accepted with
`aiAnalyzed = true` and the value passed through — not discarded for the
fallback. -/
theorem analyze_accepts_out_of_enum_category :
    (analyzeReport "key" "desc" (ModelOutcome.success bogusCategoryText)).1.aiAnalyzed = true ∧
    (analyzeReport "key" "desc" (ModelOutcome.success bogusCategoryText)).1.aiCategory =
      Json.str "bogus" ∧
    "bogus" ∉ allowedCategories ∧
    (analyzeReport "key" "desc" (ModelOutcome.success bogusCategoryText)).1 ≠
      getFallbackResponse := by
  refine ⟨rfl, rfl, by decide, ?_⟩
  intro hcontra
  have h2 : (analyzeReport "key" "desc" (ModelOutcome.success bogusCategoryText)).1.aiAnalyzed =
      getFallbackResponse.aiAnalyzed := congrArg AnalysisResult.aiAnalyzed hcontra
  exact absurd h2 (by decide)

/-- Claim C2 (amended): `aiAnalyzed = true` results are exactly the
successfully parsed ones, and the check behind them only guarantees that
category and severity were present and truthy — their values are passed
through without enumeration validation. -/
theorem analyzed_true_requires_truthy_fields (key desc text : String) (r : AnalysisResult)
    (h : (analyzeReport key desc (ModelOutcome.success text)).1 = r)
    (ha : r.aiAnalyzed = true) :
    parseAnalysis text = some r ∧
    r.aiCategory.truthy = true ∧ r.aiSeverity.truthy = true := by
  rcases analyzeReport_cases key desc (ModelOutcome.success text) with hc | ⟨t, r', ht, hp, hk, he⟩
  · rw [hc] at h
    simp at h
    rw [← h] at ha
    simp [getFallbackResponse] at ha
  · injection ht with h1
    subst h1
    rw [he] at h
    simp at h
    subst h
    exact ⟨hp, (parseAnalysis_truthy hp).2⟩

/-- A response with truthy enumerated fields. -/
def truthyFieldsText : String :=
  "\x7b\"category\":\"corruption\",\"severity\":\"low\",\"suggestions\":[]\x7d"

/-- Witness for the amended C2 at a concrete parsed response. -/
theorem analyzed_true_requires_truthy_fields_witness :
    parseAnalysis truthyFieldsText =
      some { aiAnalyzed := true, aiCategory := Json.str "corruption"
           , aiSeverity := Json.str "low", aiSummary := Json.str "Analysis completed"
           , aiSuggestions := [] } ∧
    (Json.str "corruption").truthy = true ∧ (Json.str "low").truthy = true :=
  analyzed_true_requires_truthy_fields "key" "desc" truthyFieldsText
    { aiAnalyzed := true, aiCategory := Json.str "corruption"
    , aiSeverity := Json.str "low", aiSummary := Json.str "Analysis completed"
    , aiSuggestions := [] } rfl rfl

/-- The spec's well-formed model response (§8). -/
def wellFormedExample : String :=
  "\x7b\"category\":\"harassment\",\"severity\":\"high\",\"summary\":\"...\",\"suggestions\":[\x7b\"type\":\"legal\",\"name\":\"X\",\"description\":\"Y\",\"contact\":\"Z\"\x7d]\x7d"

/-- The spec's prose-wrapped model response (§8). -/
def proseWrappedExample : String :=
  "Here you go: \x7b\"category\":\"abuse\",\"severity\":\"low\",\"suggestions\":[]\x7d"

/-- Claim C4: the embedded object is located as the brace span even with
surrounding prose, and both spec examples parse to `aiAnalyzed = true`
results with all field values preserved verbatim (empty suggestions give
the default summary placeholder). -/
theorem analyze_wellformed_examples :
    extractJson proseWrappedExample =
      some "\x7b\"category\":\"abuse\",\"severity\":\"low\",\"suggestions\":[]\x7d" ∧
    analyzeReport "key" "desc" (ModelOutcome.success wellFormedExample) =
      ({ aiAnalyzed := true
        , aiCategory := Json.str "harassment"
        , aiSeverity := Json.str "high"
        , aiSummary := Json.str "..."
        , aiSuggestions := [{ type := Json.str "legal", name := Json.str "X"
                            , description := Json.str "Y", contact := Json.str "Z" }] }, true) ∧
    analyzeReport "key" "desc" (ModelOutcome.success proseWrappedExample) =
      ({ aiAnalyzed := true
        , aiCategory := Json.str "abuse"
        , aiSeverity := Json.str "low"
        , aiSummary := Json.str "Analysis completed"
        , aiSuggestions := [] }, true) :=
  ⟨rfl, rfl, rfl⟩

end SafeSpeak

namespace SafeSpeak

/-- Model response whose suggestion carries a truthy but
out-of-enumeration `type`. -/
def invalidTypeText : String :=
  "\x7b\"category\":\"abuse\",\"severity\":\"low\",\"suggestions\":[\x7b\"type\":\"bogus\",\"name\":\"N\"\x7d]\x7d"

/-- Claim C7 is falsified at a concrete input: an invalid (but truthy)
suggestion `type` is NOT defaulted to the generic value — `"bogus"` is
preserved verbatim (absent `description`/`contact` still default to
empty strings). -/
theorem invalid_suggestion_type_preserved :
    (analyzeReport "key" "desc" (ModelOutcome.success invalidTypeText)).1.aiSuggestions =
      [{ type := Json.str "bogus", name := Json.str "N"
        , description := Json.str "", contact := Json.str "" }] ∧
    "bogus" ∉ allowedSuggestionTypes ∧
    (analyzeReport "key" "desc"
        (ModelOutcome.success invalidTypeText)).1.aiSuggestions.map Suggestion.type =
      [Json.str "bogus"] ∧
    Json.str "bogus" ≠ Json.str "other" := by
  refine ⟨rfl, by decide, rfl, ?_⟩
  intro h2
  injection h2 with h3
  exact absurd h3 (by decide)

/-- Response with all optional fields absent. -/
def absentFieldsText : String :=
  "\x7b\"category\":\"other\",\"severity\":\"low\",\"suggestions\":[\x7b\x7d]\x7d"

/-- A JS property read that did not throw returns exactly the object
member lookup (`undefined`, i.e. `none`, on primitives). -/
theorem jsGet_eq_lookup {a : Json} {k : String} {t : Option Json}
    (h : jsGet a k = some t) : t = Json.lookup a k := by
  cases a <;> simp_all [jsGet, Json.lookup]

/-- Behavior of the JS `||` default: a truthy left operand passes through
verbatim, a falsy or absent one yields the default. -/
theorem jsOrElse_spec {o : Option Json} {d x : Json} (hx : x = jsOrElse o d) :
    (∀ v, o = some v → v.truthy = true → x = v) ∧
    (jsTruthy o = false → x = d) := by
  subst hx
  constructor
  · intro v hv ht
    subst hv
    simp [jsOrElse, ht]
  · intro hf
    cases o <;> simp_all [jsOrElse, jsTruthy]

/-- Every normalized suggestion is the `||`-defaulting of the source
element's four properties. -/
theorem normalizeSuggestion_fields {s : Json} {sug : Suggestion}
    (h : normalizeSuggestion s = some sug) :
    sug.type = jsOrElse (Json.lookup s "type") (Json.str "other") ∧
    sug.name = jsOrElse (Json.lookup s "name") (Json.str "Resource") ∧
    sug.description = jsOrElse (Json.lookup s "description") (Json.str "") ∧
    sug.contact = jsOrElse (Json.lookup s "contact") (Json.str "") := by
  unfold normalizeSuggestion at h
  cases hT : jsGet s "type" with
  | none => rw [hT] at h; simp at h
  | some t =>
    cases hN : jsGet s "name" with
    | none => rw [hT, hN] at h; simp at h
    | some n =>
      cases hD : jsGet s "description" with
      | none => rw [hT, hN, hD] at h; simp at h
      | some d =>
        cases hC : jsGet s "contact" with
        | none => rw [hT, hN, hD, hC] at h; simp at h
        | some c =>
          rw [hT, hN, hD, hC] at h
          simp only [Option.some.injEq] at h
          subst h
          rw [jsGet_eq_lookup hT, jsGet_eq_lookup hN, jsGet_eq_lookup hD, jsGet_eq_lookup hC]
          exact ⟨rfl, rfl, rfl, rfl⟩

/-- A successful suggestion map preserves length and is elementwise
`normalizeSuggestion`. -/
theorem mapNormalize_length_get {xs : List Json} {l : List Suggestion}
    (h : mapNormalize xs = some l) :
    l.length = xs.length ∧
    ∀ i (hi : i < xs.length) (hi2 : i < l.length),
      normalizeSuggestion (xs.get ⟨i, hi⟩) = some (l.get ⟨i, hi2⟩) := by
  induction xs generalizing l with
  | nil =>
    simp [mapNormalize] at h
    subst h
    exact ⟨rfl, fun i hi hi2 => absurd hi (Nat.not_lt_zero i)⟩
  | cons s rest ih =>
    unfold mapNormalize at h
    cases hns : normalizeSuggestion s with
    | none => rw [hns] at h; simp at h
    | some sug =>
      cases hmr : mapNormalize rest with
      | none => rw [hns, hmr] at h; simp at h
      | some sugs =>
        rw [hns, hmr] at h
        simp only [Option.some.injEq] at h
        subst h
        obtain ⟨hlen, hget⟩ := ih hmr
        refine ⟨by simp [hlen], ?_⟩
        intro i hi hi2
        cases i with
        | zero => simpa using hns
        | succ j =>
          have hj : j < rest.length := by simpa using hi
          have hj2 : j < sugs.length := by simpa [hlen] using hi2
          simpa using hget j hj hj2

/-- Decomposition of the validation success branch: the accepted object
has an array bound to `suggestions`, the result summary is the
`||`-default of its `summary` member, and the result suggestions are the
normalized map of that array. -/
theorem validateAndNormalize_shape {a : Json} {r : AnalysisResult}
    (h : validateAndNormalize a = some r) :
    ∃ xs, Json.lookup a "suggestions" = some (Json.arr xs) ∧
      r.aiSummary = jsOrElse (Json.lookup a "summary") (Json.str "Analysis completed") ∧
      mapNormalize xs = some r.aiSuggestions := by
  unfold validateAndNormalize at h
  repeat' split at h
  all_goals try (exact Option.noConfusion h)
  rename_i hc hs x1 sum? hsum sugs xs hg hcond x2 sugList hmn
  simp only [Option.some.injEq] at h
  subst h
  exact ⟨xs, (jsGet_eq_lookup hg).symm, by simp [jsGet_eq_lookup hsum], hmn⟩

/-- Claim C7 (amended): on every successfully parsed model response —
which is exactly what `analyzeReport` returns for any configured key —
the summary defaults to the generic placeholder exactly when the parsed
object's `summary` is absent or falsy and is preserved verbatim when
truthy, and every suggestion's `type`, `name`, `description` and
`contact` default to `"other"`, `"Resource"`, `""` and `""` exactly when
absent or falsy, truthy values (even out-of-enumeration ones) passing
through verbatim. -/
theorem normalization_defaults_absent_or_falsy (text : String) (r : AnalysisResult)
    (h : parseAnalysis text = some r) :
    (∀ key desc, initModelConfigured key = true →
        analyzeReport key desc (ModelOutcome.success text) = (r, true)) ∧
    ∃ a xs, extractAndParse text = some a ∧
      Json.lookup a "suggestions" = some (Json.arr xs) ∧
      (∀ v, Json.lookup a "summary" = some v → v.truthy = true → r.aiSummary = v) ∧
      (jsTruthy (Json.lookup a "summary") = false →
        r.aiSummary = Json.str "Analysis completed") ∧
      r.aiSuggestions.length = xs.length ∧
      (∀ i (hi : i < xs.length) (hi2 : i < r.aiSuggestions.length),
        (∀ v, Json.lookup (xs.get ⟨i, hi⟩) "type" = some v → v.truthy = true →
          (r.aiSuggestions.get ⟨i, hi2⟩).type = v) ∧
        (jsTruthy (Json.lookup (xs.get ⟨i, hi⟩) "type") = false →
          (r.aiSuggestions.get ⟨i, hi2⟩).type = Json.str "other") ∧
        (∀ v, Json.lookup (xs.get ⟨i, hi⟩) "name" = some v → v.truthy = true →
          (r.aiSuggestions.get ⟨i, hi2⟩).name = v) ∧
        (jsTruthy (Json.lookup (xs.get ⟨i, hi⟩) "name") = false →
          (r.aiSuggestions.get ⟨i, hi2⟩).name = Json.str "Resource") ∧
        (∀ v, Json.lookup (xs.get ⟨i, hi⟩) "description" = some v → v.truthy = true →
          (r.aiSuggestions.get ⟨i, hi2⟩).description = v) ∧
        (jsTruthy (Json.lookup (xs.get ⟨i, hi⟩) "description") = false →
          (r.aiSuggestions.get ⟨i, hi2⟩).description = Json.str "") ∧
        (∀ v, Json.lookup (xs.get ⟨i, hi⟩) "contact" = some v → v.truthy = true →
          (r.aiSuggestions.get ⟨i, hi2⟩).contact = v) ∧
        (jsTruthy (Json.lookup (xs.get ⟨i, hi⟩) "contact") = false →
          (r.aiSuggestions.get ⟨i, hi2⟩).contact = Json.str "")) := by
  refine ⟨fun key desc hk => analyzeReport_success_parsed desc hk h, ?_⟩
  have hap : ∃ a, extractAndParse text = some a ∧ validateAndNormalize a = some r := by
    unfold parseAnalysis at h
    split at h
    · exact Option.noConfusion h
    · rename_i a hea
      exact ⟨a, hea, h⟩
  obtain ⟨a, hea, hv⟩ := hap
  obtain ⟨xs, hsg, hsum, hmn⟩ := validateAndNormalize_shape hv
  obtain ⟨hlen, hget⟩ := mapNormalize_length_get hmn
  refine ⟨a, xs, hea, hsg, (jsOrElse_spec hsum).1, (jsOrElse_spec hsum).2, hlen, ?_⟩
  intro i hi hi2
  obtain ⟨hT, hN, hD, hC⟩ := normalizeSuggestion_fields (hget i hi hi2)
  exact ⟨(jsOrElse_spec hT).1, (jsOrElse_spec hT).2,
         (jsOrElse_spec hN).1, (jsOrElse_spec hN).2,
         (jsOrElse_spec hD).1, (jsOrElse_spec hD).2,
         (jsOrElse_spec hC).1, (jsOrElse_spec hC).2⟩

/-- Witness for the amended C7: applying the universal theorem to a
concrete parsed response with absent optional fields yields exactly the
defaulted record. -/
theorem normalization_defaults_absent_or_falsy_witness :
    analyzeReport "key" "desc" (ModelOutcome.success absentFieldsText) =
      ({ aiAnalyzed := true, aiCategory := Json.str "other", aiSeverity := Json.str "low"
        , aiSummary := Json.str "Analysis completed"
        , aiSuggestions := [{ type := Json.str "other", name := Json.str "Resource"
                            , description := Json.str "", contact := Json.str "" }] }, true) :=
  (normalization_defaults_absent_or_falsy absentFieldsText
    { aiAnalyzed := true, aiCategory := Json.str "other", aiSeverity := Json.str "low"
    , aiSummary := Json.str "Analysis completed"
    , aiSuggestions := [{ type := Json.str "other", name := Json.str "Resource"
                        , description := Json.str "", contact := Json.str "" }] }
    rfl).1 "key" "desc" (by decide)

/-- A 501-character summary. -/
def longSummary : String := String.mk (List.replicate 501 'a')

/-- Model response carrying the 501-character summary. -/
def longSummaryText : String :=
  "\x7b\"category\":\"abuse\",\"severity\":\"low\",\"suggestions\":[],\"summary\":\"" ++ longSummary ++ "\"\x7d"

/-- Claim C8 is contradicted by the code: a model-supplied summary passes
through `analyzeReport` verbatim with no truncation, so the returned
summary can exceed the 500-character `maxlength` the `Report` schema
declares for `aiSummary`. -/
theorem summary_exceeds_schema_bound :
    (analyzeReport "key" "desc" (ModelOutcome.success longSummaryText)).1.aiSummary =
      Json.str longSummary ∧
    (analyzeReport "key" "desc" (ModelOutcome.success longSummaryText)).1.aiAnalyzed = true ∧
    longSummary.length = 501 ∧
    aiSummaryMaxlength = 500 ∧
    aiSummaryMaxlength < longSummary.length := by
  refine ⟨rfl, rfl, ?_, rfl, ?_⟩
  · simp [longSummary, String.length]
  · simp [longSummary, String.length, aiSummaryMaxlength]

/-- Claim C10: the required-field check tests JS truthiness, not key
presence: whenever the extracted and parsed object binds `category`,
`severity` or `suggestions` to a falsy value, the whole call degrades to
the fallback payload. -/
theorem required_field_check_is_truthiness (key desc text : String) (analysis v : Json)
    (hk : initModelConfigured key = true)
    (hp : extractAndParse text = some analysis)
    (hv : analysis.lookup "category" = some v ∨ analysis.lookup "severity" = some v ∨
      analysis.lookup "suggestions" = some v)
    (hf : v.truthy = false) :
    analyzeReport key desc (ModelOutcome.success text) = (getFallbackResponse, true) := by
  have hobj : ∃ kvs, analysis = Json.obj kvs := by
    cases analysis <;> first
      | exact ⟨_, rfl⟩
      | (rcases hv with h | h | h <;> simp [Json.lookup] at h)
  obtain ⟨kvs, rfl⟩ := hobj
  have hval : validateAndNormalize (Json.obj kvs) = none := by
    rcases hv with h | h | h <;> simp [validateAndNormalize, jsGet, jsTruthy, h, hf]
  have hpa : parseAnalysis text = none := by
    simp [parseAnalysis, hp, hval]
  simp [analyzeReport, hk, hpa]

/-- Response whose `category` key is present but bound to the empty
string. -/
def falsyCategoryText : String :=
  "\x7b\"category\":\"\",\"severity\":\"high\",\"suggestions\":[]\x7d"

/-- Witness for C10 at a present-but-empty category. -/
theorem required_field_check_is_truthiness_witness :
    analyzeReport "key" "desc" (ModelOutcome.success falsyCategoryText) =
      (getFallbackResponse, true) :=
  required_field_check_is_truthiness "key" "desc" falsyCategoryText
    (Json.obj [("category", Json.str ""), ("severity", Json.str "high"),
               ("suggestions", Json.arr [])])
    (Json.str "") (by decide) rfl (Or.inl rfl) rfl

end SafeSpeak
